import Mathlib

/-!
Verification of the random-number generator core (random_number_2025.py,
with the archived 2024 variant modelled where a claim refers to it).

The core is embedded shallowly: each backend method becomes a Lean
function over an explicit environment describing the host (OS family,
CPU feature flag) and the outcomes of the external calls it makes
(os.urandom, CryptAcquireContextW, CryptGenRandom, VirtualAlloc, the
RDRAND stub).  Every backend returns its result together with a trace of
the external events it performed, so that claims about call counts,
ordering and non-invocation can be stated and proved.
-/

/-- Error categories raised by the generator backends.  Each constructor
corresponds to one raise site of the Python source: ValueError for the
range check, OSError for unsupported platforms, the two CryptoAPI
OSErrors (carrying GetLastError codes), the VirtualAlloc OSError and the
RuntimeError after ten failed RDRAND attempts. -/
inductive Err where
  | invalidRange
  | sourceUnavailable
  | contextAcquisitionFailed (code : Nat)
  | randomGenerationFailed (code : Nat)
  | allocationFailed
  | hardwareRandomExhausted
deriving DecidableEq, Repr

/-- External calls a backend can perform, recorded in order. -/
inductive Event where
  | urandomRead
  | acquireContext
  | genRandom
  | releaseContext
  | virtualAlloc
  | rdrandStep
deriving DecidableEq, Repr

/-- Immutable host properties read by the capability probes:
platform.system() == Windows, and the IsProcessorFeaturePresent(33)
CPU-feature answer. -/
structure Host where
  isWindows : Bool
  rdrandFlag : Bool
deriving DecidableEq, Repr

/-- Outcomes of the external world for one generation call: the value
os.urandom yields, whether CryptAcquireContextW / CryptGenRandom /
VirtualAlloc succeed (with GetLastError codes on failure), the value
CryptGenRandom yields, and for each RDRAND attempt its carry flag and
64-bit output. -/
structure Env where
  host : Host
  urandom64 : Nat
  acquireOk : Bool
  acquireErrCode : Nat
  genOk : Bool
  genErrCode : Nat
  cryptoRand64 : Nat
  allocOk : Bool
  rdrandResults : Nat → Bool × Nat

/-- RandomNumberGenerator.supports_entropy: always True. -/
def supports_entropy : Bool := true

/-- RandomNumberGenerator.supports_crypto_api: platform.system() == Windows. -/
def supports_crypto_api (h : Host) : Bool := h.isWindows

/-- RandomNumberGenerator.supports_rdrand: False off Windows, else the
IsProcessorFeaturePresent(PF_RDRAND_AVAILABLE) answer. -/
def supports_rdrand (h : Host) : Bool :=
  if h.isWindows = false then false else h.rdrandFlag

/-- RandomNumberGenerator._check_range: raise ValueError when lo >= hi. -/
def _check_range (lo hi : Int) : Except Err Unit :=
  if lo ≥ hi then .error .invalidRange else .ok ()

/-- RandomNumberGenerator._map: lo + (v % (hi - lo + 1)).  Python's %
with a positive divisor agrees with Int.emod, which Lean's % denotes. -/
def _map (v lo hi : Int) : Int :=
  lo + v % (hi - lo + 1)

/-- RandomNumberGenerator.entropy_pool: check the range, read 8 bytes of
os.urandom, map them. -/
def entropy_pool (env : Env) (lo hi : Int) : Except Err Int × List Event :=
  match _check_range lo hi with
  | .error e => (.error e, [])
  | .ok _ => (.ok (_map (env.urandom64 : Int) lo hi), [.urandomRead])

/-- RandomNumberGenerator.crypto_api: refuse off Windows, check the
range, acquire a CryptoAPI context, generate 8 bytes, and release the
context in a finally block (so release runs exactly once whenever the
acquire succeeded, on the success and the generation-failure path alike). -/
def crypto_api (env : Env) (lo hi : Int) : Except Err Int × List Event :=
  if env.host.isWindows = false then (.error .sourceUnavailable, [])
  else
    match _check_range lo hi with
    | .error e => (.error e, [])
    | .ok _ =>
      if env.acquireOk = false then
        (.error (.contextAcquisitionFailed env.acquireErrCode), [.acquireContext])
      else if env.genOk = false then
        (.error (.randomGenerationFailed env.genErrCode),
          [.acquireContext, .genRandom, .releaseContext])
      else
        (.ok (_map (env.cryptoRand64 : Int) lo hi),
          [.acquireContext, .genRandom, .releaseContext])

/-- The retry loop of RandomNumberGenerator.rdrand: invoke the stub once
per iteration for at most fuel iterations, starting at attempt index
start; return the first successful 64-bit value (or none) together with
the number of invocations actually made. -/
def rdrandLoop (step : Nat → Bool × Nat) (start fuel : Nat) : Option Nat × Nat :=
  match fuel with
  | 0 => (none, 0)
  | fuel' + 1 =>
    let r := step start
    if r.1 then (some r.2, 1)
    else
      let rest := rdrandLoop step (start + 1) fuel'
      (rest.1, rest.2 + 1)

/-- RandomNumberGenerator.rdrand: refuse when supports_rdrand is false,
check the range, allocate the executable stub once (OSError when
VirtualAlloc fails), then try the instruction up to 10 times, mapping
the first successful value; RuntimeError when all ten attempts fail. -/
def rdrand (env : Env) (lo hi : Int) : Except Err Int × List Event :=
  if supports_rdrand env.host = false then (.error .sourceUnavailable, [])
  else
    match _check_range lo hi with
    | .error e => (.error e, [])
    | .ok _ =>
      if env.allocOk = false then (.error .allocationFailed, [.virtualAlloc])
      else
        match rdrandLoop env.rdrandResults 0 10 with
        | (some v, k) =>
          (.ok (_map (v : Int) lo hi), .virtualAlloc :: List.replicate k .rdrandStep)
        | (none, k) =>
          (.error .hardwareRandomExhausted, .virtualAlloc :: List.replicate k .rdrandStep)

/-- Basic bound for the modulo mapper: a nonnegative raw value lands in
the inclusive range whenever lo < hi. -/
lemma map_mem_of_nonneg (v lo hi : Int) (_hv : 0 ≤ v) (hr : lo < hi) :
    lo ≤ _map v lo hi ∧ _map v lo hi ≤ hi := by
  have hd : 0 < hi - lo + 1 := by omega
  have h1 : 0 ≤ v % (hi - lo + 1) := Int.emod_nonneg v (by omega)
  have h2 : v % (hi - lo + 1) < hi - lo + 1 := Int.emod_lt_of_pos v hd
  unfold _map
  omega

/-- C1: for lo < hi and raw in [0, 2^64), the mapper returns exactly
lo + (raw mod (hi - lo + 1)), and the result lies in [lo, hi]. -/
theorem C1_range_mapper (raw : Nat) (lo hi : Int)
    (hr : lo < hi) (_hraw : raw < 2 ^ 64) :
    _map (raw : Int) lo hi = lo + (raw : Int) % (hi - lo + 1) ∧
    lo ≤ _map (raw : Int) lo hi ∧ _map (raw : Int) lo hi ≤ hi := by
  refine ⟨rfl, ?_⟩
  exact map_mem_of_nonneg (raw : Int) lo hi (Int.ofNat_nonneg raw) hr

/-- Witness for C1 at the spec's two sample points: raw = 0 gives 1, and
raw = 2^64 - 1 gives 1 + ((2^64 - 1) mod 100) = 16. -/
theorem C1_range_mapper_witness :
    (_map ((0 : Nat) : Int) 1 100 = 1 + ((0 : Nat) : Int) % (100 - 1 + 1) ∧
      1 ≤ _map ((0 : Nat) : Int) 1 100 ∧ _map ((0 : Nat) : Int) 1 100 ≤ 100) ∧
    _map ((0 : Nat) : Int) 1 100 = 1 ∧
    _map ((2 ^ 64 - 1 : Nat) : Int) 1 100 = 1 + ((2 ^ 64 - 1 : Nat) : Int) % 100 ∧
    _map ((2 ^ 64 - 1 : Nat) : Int) 1 100 = 16 :=
  ⟨C1_range_mapper 0 1 100 (by decide) (by decide), by decide, by decide, by decide⟩

/-- C9: whenever the range check passes, the mapping divisor
hi - lo + 1 is at least 2, hence nonzero, so the modulo in the mapper is
never a division by zero. -/
theorem C9_divisor_positive (lo hi : Int) (h : _check_range lo hi = .ok ()) :
    2 ≤ hi - lo + 1 ∧ 0 < hi - lo + 1 := by
  unfold _check_range at h
  split at h
  · exact absurd h (by simp)
  · rename_i hlt
    omega

/-- Witness for C9 at lo = 1, hi = 100. -/
theorem C9_divisor_positive_witness :
    2 ≤ (100 : Int) - 1 + 1 ∧ 0 < (100 : Int) - 1 + 1 :=
  C9_divisor_positive 1 100 rfl

/-- When every attempt in the window fails, the loop makes exactly fuel
invocations and yields no value. -/
lemma rdrandLoop_all_fail (step : Nat → Bool × Nat) (fuel : Nat) :
    ∀ start, (∀ i, i < fuel → (step (start + i)).1 = false) →
    rdrandLoop step start fuel = (none, fuel) := by
  induction fuel with
  | zero => intro start _; rfl
  | succ n ih =>
    intro start hfail
    have h0 : (step start).1 = false := by
      have h := hfail 0 n.succ_pos
      simpa using h
    have hrec := ih (start + 1) (fun i hi => by
      have h := hfail (i + 1) (by omega)
      have heq : start + (i + 1) = start + 1 + i := by omega
      rwa [heq] at h)
    unfold rdrandLoop
    simp [h0, hrec]

/-- When attempts 0..j-1 fail and attempt j succeeds within the window,
the loop makes exactly j + 1 invocations and yields attempt j's value
unmodified. -/
lemma rdrandLoop_first_success (step : Nat → Bool × Nat) (fuel : Nat) :
    ∀ start j, j < fuel →
    (∀ i, i < j → (step (start + i)).1 = false) →
    (step (start + j)).1 = true →
    rdrandLoop step start fuel = (some (step (start + j)).2, j + 1) := by
  induction fuel with
  | zero => intro start j hj; omega
  | succ n ih =>
    intro start j hj hfail hsucc
    cases j with
    | zero =>
      have h0 : (step start).1 = true := by simpa using hsucc
      unfold rdrandLoop
      simp [h0]
    | succ m =>
      have h0 : (step start).1 = false := by
        have h := hfail 0 m.succ_pos
        simpa using h
      have hidx : start + 1 + m = start + (m + 1) := by omega
      have hrec := ih (start + 1) m (by omega)
        (fun i hi => by
          have h := hfail (i + 1) (by omega)
          have heq : start + (i + 1) = start + 1 + i := by omega
          rwa [heq] at h)
        (by rwa [hidx])
      unfold rdrandLoop
      simp [h0, hrec, hidx]

/-- C3: the hardware backend invokes the stub at most 10 times; when
attempt k is the first to succeed, exactly k invocations occur and
attempt k's value is the one mapped and returned; when all 10 attempts
fail, exactly 10 invocations occur and the call fails with
hardwareRandomExhausted. -/
theorem C3_rdrand_retry (env : Env) (lo hi : Int)
    (hs : supports_rdrand env.host = true) (hr : lo < hi)
    (ha : env.allocOk = true) :
    (∀ k : Nat, 1 ≤ k → k ≤ 10 →
      (∀ i, i < k - 1 → (env.rdrandResults i).1 = false) →
      (env.rdrandResults (k - 1)).1 = true →
      rdrand env lo hi =
        (.ok (_map ((env.rdrandResults (k - 1)).2 : Int) lo hi),
          .virtualAlloc :: List.replicate k .rdrandStep)) ∧
    ((∀ i, i < 10 → (env.rdrandResults i).1 = false) →
      rdrand env lo hi =
        (.error .hardwareRandomExhausted,
          .virtualAlloc :: List.replicate 10 .rdrandStep)) := by
  have hge : ¬ lo ≥ hi := not_le.mpr hr
  constructor
  · intro k hk1 hk10 hfail hsucc
    have hk : k - 1 + 1 = k := by omega
    have hloop : rdrandLoop env.rdrandResults 0 10 =
        (some (env.rdrandResults (k - 1)).2, k) := by
      have h := rdrandLoop_first_success env.rdrandResults 10 0 (k - 1) (by omega)
        (fun i hi => by simpa using hfail i hi) (by simpa using hsucc)
      simpa [hk] using h
    unfold rdrand
    simp [hs, _check_range, hge, ha, hloop]
  · intro hfail
    have hloop : rdrandLoop env.rdrandResults 0 10 = (none, 10) :=
      rdrandLoop_all_fail env.rdrandResults 10 0
        (fun i hi => by simpa using hfail i hi)
    unfold rdrand
    simp [hs, _check_range, hge, ha, hloop]

/-- A Windows host whose CPU reports RDRAND, with every external call
succeeding; the stub succeeds on attempt index 6 (the seventh attempt)
with value 42. -/
def envRd7 : Env :=
  { host := { isWindows := true, rdrandFlag := true },
    urandom64 := 0, acquireOk := true, acquireErrCode := 0,
    genOk := true, genErrCode := 0, cryptoRand64 := 0, allocOk := true,
    rdrandResults := fun i => (i == 6, 42) }

/-- Witness for C3: with success on the seventh attempt, exactly seven
invocations occur and attempt seven's value 42 is mapped. -/
theorem C3_rdrand_retry_witness :
    rdrand envRd7 1 100 =
      (.ok (_map ((envRd7.rdrandResults (7 - 1)).2 : Int) 1 100),
        .virtualAlloc :: List.replicate 7 .rdrandStep) :=
  (C3_rdrand_retry envRd7 1 100 (by decide) (by decide) (by decide)).1 7
    (by decide) (by decide) (by decide) (by decide)

/-- Every trace rdrand can produce is either empty (guard failure) or a
single allocation followed by some number of stub invocations. -/
lemma rdrand_trace_shape (env : Env) (lo hi : Int) :
    (rdrand env lo hi).2 = [] ∨
    ∃ k, (rdrand env lo hi).2 = .virtualAlloc :: List.replicate k .rdrandStep := by
  unfold rdrand
  by_cases hs : supports_rdrand env.host = false
  · simp [hs]
  · rcases hc : _check_range lo hi with e | u
    · simp [hs, hc]
    · by_cases ha : env.allocOk = false
      · refine Or.inr ⟨0, ?_⟩
        simp [hs, hc, ha]
      · rcases hl : rdrandLoop env.rdrandResults 0 10 with ⟨ov, k⟩
        refine Or.inr ⟨k, ?_⟩
        cases ov <;> simp [hs, hc, ha, hl]

/-- C8: under the guards that reach the allocation, the executable-stub
allocation happens exactly once per call and before any instruction
attempt (it heads the trace); when it fails, the call stops at once with
allocationFailed, zero instruction attempts, and no internal retry. -/
theorem C8_alloc_once (env : Env) (lo hi : Int)
    (hs : supports_rdrand env.host = true) (hr : lo < hi) :
    (rdrand env lo hi).2.count .virtualAlloc = 1 ∧
    (rdrand env lo hi).2.head? = some .virtualAlloc ∧
    (env.allocOk = false →
      rdrand env lo hi = (.error .allocationFailed, [.virtualAlloc])) := by
  have hge : ¬ lo ≥ hi := not_le.mpr hr
  by_cases ha : env.allocOk = false
  · unfold rdrand
    simp [hs, _check_range, hge, ha, List.count_cons]
  · rcases hl : rdrandLoop env.rdrandResults 0 10 with ⟨ov, k⟩
    unfold rdrand
    cases ov <;>
      simp [hs, _check_range, hge, ha, hl, List.count_cons, List.count_replicate]

/-- Witness for C8 on a supported host whose VirtualAlloc fails. -/
def envRdAllocFail : Env :=
  { host := { isWindows := true, rdrandFlag := true },
    urandom64 := 0, acquireOk := true, acquireErrCode := 0,
    genOk := true, genErrCode := 0, cryptoRand64 := 0, allocOk := false,
    rdrandResults := fun _ => (true, 0) }

/-- Witness for C8: allocation failure yields allocationFailed with a
one-event trace. -/
theorem C8_alloc_once_witness :
    (rdrand envRdAllocFail 1 100).2.count .virtualAlloc = 1 ∧
    (rdrand envRdAllocFail 1 100).2.head? = some .virtualAlloc ∧
    (envRdAllocFail.allocOk = false →
      rdrand envRdAllocFail 1 100 = (.error .allocationFailed, [.virtualAlloc])) :=
  C8_alloc_once envRdAllocFail 1 100 (by decide) (by decide)

/-- C7: the hardware backend never performs an OS-pool read or any
CryptoAPI call — its trace holds only the allocation and stub
invocations — and when the retry budget is exhausted the error
propagates instead of falling back to another source. -/
theorem C7_no_fallback (env : Env) (lo hi : Int) :
    (rdrand env lo hi).2.count .urandomRead = 0 ∧
    (rdrand env lo hi).2.count .acquireContext = 0 ∧
    (rdrand env lo hi).2.count .genRandom = 0 ∧
    (rdrand env lo hi).2.count .releaseContext = 0 ∧
    (supports_rdrand env.host = true → lo < hi → env.allocOk = true →
      (∀ i, i < 10 → (env.rdrandResults i).1 = false) →
      (rdrand env lo hi).1 = .error .hardwareRandomExhausted) := by
  have hshape := rdrand_trace_shape env lo hi
  have hcounts : (rdrand env lo hi).2.count .urandomRead = 0 ∧
      (rdrand env lo hi).2.count .acquireContext = 0 ∧
      (rdrand env lo hi).2.count .genRandom = 0 ∧
      (rdrand env lo hi).2.count .releaseContext = 0 := by
    rcases hshape with h | ⟨k, h⟩ <;>
      rw [h] <;> simp [List.count_cons, List.count_replicate]
  refine ⟨hcounts.1, hcounts.2.1, hcounts.2.2.1, hcounts.2.2.2, ?_⟩
  intro hs hr ha hfail
  have hge : ¬ lo ≥ hi := not_le.mpr hr
  have hloop : rdrandLoop env.rdrandResults 0 10 = (none, 10) :=
    rdrandLoop_all_fail env.rdrandResults 10 0
      (fun i hi2 => by simpa using hfail i hi2)
  unfold rdrand
  simp [hs, _check_range, hge, ha, hloop]

/-- A supported host on which every stub attempt reports failure. -/
def envRdExhaust : Env :=
  { host := { isWindows := true, rdrandFlag := true },
    urandom64 := 0, acquireOk := true, acquireErrCode := 0,
    genOk := true, genErrCode := 0, cryptoRand64 := 0, allocOk := true,
    rdrandResults := fun _ => (false, 0) }

/-- Witness for C7: with all attempts failing, the hardware error
propagates to the caller. -/
theorem C7_no_fallback_witness :
    (rdrand envRdExhaust 1 100).1 = .error .hardwareRandomExhausted :=
  (C7_no_fallback envRdExhaust 1 100).2.2.2.2 (by decide) (by decide) (by decide)
    (by decide)

/-- C4: when context acquisition fails, the call fails with
contextAcquisitionFailed carrying the platform error code and no release
is ever attempted; when acquisition succeeds, release runs exactly once
on every exit path, including before a randomGenerationFailed error
propagates. -/
theorem C4_release_discipline (env : Env) (lo hi : Int)
    (hw : env.host.isWindows = true) (hr : lo < hi) :
    (env.acquireOk = false →
      (crypto_api env lo hi).1 = .error (.contextAcquisitionFailed env.acquireErrCode) ∧
      (crypto_api env lo hi).2.count .releaseContext = 0) ∧
    (env.acquireOk = true →
      (crypto_api env lo hi).2.count .releaseContext = 1 ∧
      (env.genOk = false →
        (crypto_api env lo hi).1 = .error (.randomGenerationFailed env.genErrCode))) := by
  have hge : ¬ lo ≥ hi := not_le.mpr hr
  constructor
  · intro hacq
    unfold crypto_api
    simp [hw, _check_range, hge, hacq, List.count_cons]
  · intro hacq
    by_cases hg : env.genOk = false
    · unfold crypto_api
      simp [hw, _check_range, hge, hacq, hg, List.count_cons]
    · have hg' : env.genOk = true := by revert hg; cases env.genOk <;> simp
      unfold crypto_api
      simp [hw, _check_range, hge, hacq, hg', List.count_cons]

/-- A Windows host whose CryptAcquireContextW fails with code 5. -/
def envAcqFail : Env :=
  { host := { isWindows := true, rdrandFlag := false },
    urandom64 := 0, acquireOk := false, acquireErrCode := 5,
    genOk := true, genErrCode := 0, cryptoRand64 := 0, allocOk := true,
    rdrandResults := fun _ => (true, 0) }

/-- Witness for C4: failed acquisition reports the platform code 5 and
performs no release. -/
theorem C4_release_discipline_witness :
    (crypto_api envAcqFail 1 100).1 = .error (.contextAcquisitionFailed 5) ∧
    (crypto_api envAcqFail 1 100).2.count .releaseContext = 0 :=
  (C4_release_discipline envAcqFail 1 100 (by decide) (by decide)).1 (by decide)

/-- C5: the capability probes are pure functions of immutable host
state: the entropy pool is always supported, the crypto API exactly on
Windows, and RDRAND exactly when Windows exposes the CPU-feature query
and that query reports the instruction. -/
theorem C5_capability_probes (h : Host) :
    supports_entropy = true ∧
    supports_crypto_api h = h.isWindows ∧
    supports_rdrand h = (h.isWindows && h.rdrandFlag) := by
  refine ⟨rfl, rfl, ?_⟩
  unfold supports_rdrand
  cases hw : h.isWindows <;> simp

/-- C10: when the backend's platform support check fails, a call with
lo >= hi fails with the unsupported-source error, not the invalid-range
error: the support check precedes range validation in both crypto_api
and rdrand. -/
theorem C10_support_before_range (env : Env) (lo hi : Int) (_h : hi ≤ lo) :
    (supports_crypto_api env.host = false →
      (crypto_api env lo hi).1 = .error .sourceUnavailable) ∧
    (supports_rdrand env.host = false →
      (rdrand env lo hi).1 = .error .sourceUnavailable) := by
  constructor
  · intro hc
    unfold crypto_api
    simp [supports_crypto_api] at hc
    simp [hc]
  · intro hc
    unfold rdrand
    simp [hc]

/-- A non-Windows host with every external call able to succeed. -/
def envLinux : Env :=
  { host := { isWindows := false, rdrandFlag := false },
    urandom64 := 7, acquireOk := true, acquireErrCode := 0,
    genOk := true, genErrCode := 0, cryptoRand64 := 7, allocOk := true,
    rdrandResults := fun _ => (true, 7) }

/-- Witness for C10: off Windows, lo = 1 >= hi = 0 yields the
unsupported-source error from both platform-gated backends. -/
theorem C10_support_before_range_witness :
    (crypto_api envLinux 1 0).1 = .error .sourceUnavailable ∧
    (rdrand envLinux 1 0).1 = .error .sourceUnavailable :=
  ⟨(C10_support_before_range envLinux 1 0 (by decide)).1 (by decide),
    (C10_support_before_range envLinux 1 0 (by decide)).2 (by decide)⟩

/-- Counterexample to C2 as stated: on a non-Windows host the crypto
backend with lo = 1 >= hi = 0 fails with sourceUnavailable, which is a
different error constructor than invalidRange, because the platform
check runs before the range check. -/
theorem C2_counterexample :
    (crypto_api envLinux 1 0).1 = .error .sourceUnavailable ∧
    decide (Err.sourceUnavailable = Err.invalidRange) = false :=
  ⟨rfl, rfl⟩

/-- C2 (amended): for lo >= hi no backend consumes any entropy or
invokes an external call at all (every trace is empty), and on every
backend whose platform support check passes — the entropy pool always,
the platform-gated backends on supported hosts — the call fails with
the invalid-range error. -/
theorem C2_range_check_first (env : Env) (lo hi : Int) (h : hi ≤ lo) :
    entropy_pool env lo hi = (.error .invalidRange, []) ∧
    (crypto_api env lo hi).2 = [] ∧
    (rdrand env lo hi).2 = [] ∧
    (supports_crypto_api env.host = true →
      crypto_api env lo hi = (.error .invalidRange, [])) ∧
    (supports_rdrand env.host = true →
      rdrand env lo hi = (.error .invalidRange, [])) := by
  have hge : lo ≥ hi := h
  have hcheck : _check_range lo hi = .error .invalidRange := by
    unfold _check_range
    simp [hge]
  refine ⟨?_, ?_, ?_, ?_, ?_⟩
  · unfold entropy_pool
    simp [hcheck]
  · unfold crypto_api
    by_cases hw : env.host.isWindows = false
    · simp [hw]
    · simp [hw, hcheck]
  · unfold rdrand
    by_cases hsup : supports_rdrand env.host = false
    · simp [hsup]
    · simp [hsup, hcheck]
  · intro hc
    have hw : env.host.isWindows = true := hc
    unfold crypto_api
    simp [hw, hcheck]
  · intro hc
    unfold rdrand
    simp [hc, hcheck]

/-- Witness for the amended C2 on a fully supported host at lo = hi = 1. -/
theorem C2_range_check_first_witness :
    entropy_pool envRd7 1 1 = (.error .invalidRange, []) ∧
    crypto_api envRd7 1 1 = (.error .invalidRange, []) ∧
    rdrand envRd7 1 1 = (.error .invalidRange, []) :=
  ⟨(C2_range_check_first envRd7 1 1 (by decide)).1,
    (C2_range_check_first envRd7 1 1 (by decide)).2.2.2.1 (by decide),
    (C2_range_check_first envRd7 1 1 (by decide)).2.2.2.2 (by decide)⟩

/-- Environment of the archived 2024 crypto backend: whether os.urandom
succeeds and the 64-bit value it yields when it does. -/
structure Env2024 where
  urandomOk : Bool
  urandom64 : Nat
deriving DecidableEq, Repr

/-- Archived 2024 RandomNumberGenerator.generate_crypto_hardware_random
(lines 49-57): try reading 8 urandom bytes and mapping them; on any
exception, print the error and return None — the failure is swallowed
into a sentinel normal return (ok none) instead of propagating as a
typed error. -/
def generate_crypto_hardware_random_2024 (env : Env2024) (lo hi : Int) :
    Except Err (Option Int) :=
  if env.urandomOk = true then
    .ok (some (lo + (env.urandom64 : Int) % (hi - lo + 1)))
  else
    .ok none

/-- Counterexample to C6 as stated: when byte acquisition fails, the
archived 2024 crypto backend returns ok none — a sentinel None presented
as a normal return, which is neither a typed error (no error
constructor) nor an integer in [1, 100]. -/
theorem C6_counterexample :
    generate_crypto_hardware_random_2024 ⟨false, 0⟩ 1 100 = .ok none := rfl

/-- C6 (amended): every backend of the 2025 core, for lo < hi, either
signals a typed error or returns an integer inside [lo, hi]; no failure
is swallowed into a sentinel value.  The archived 2024 crypto backend
violates this by returning None on failure. -/
theorem C6_no_sentinel (env : Env) (lo hi n : Int) (hr : lo < hi) :
    ((entropy_pool env lo hi).1 = .ok n → lo ≤ n ∧ n ≤ hi) ∧
    ((crypto_api env lo hi).1 = .ok n → lo ≤ n ∧ n ≤ hi) ∧
    ((rdrand env lo hi).1 = .ok n → lo ≤ n ∧ n ≤ hi) := by
  have hge : ¬ lo ≥ hi := not_le.mpr hr
  have hcheck : _check_range lo hi = .ok () := by
    unfold _check_range
    simp [hge]
  refine ⟨?_, ?_, ?_⟩
  · intro h
    unfold entropy_pool at h
    rw [hcheck] at h
    simp only [] at h
    have hb := map_mem_of_nonneg (env.urandom64 : Int) lo hi (Int.ofNat_nonneg _) hr
    simp at h
    omega
  · intro h
    unfold crypto_api at h
    by_cases hw : env.host.isWindows = false
    · simp [hw] at h
    · simp only [hw, if_false] at h
      rw [hcheck] at h
      by_cases hacq : env.acquireOk = false
      · simp [hacq] at h
      · by_cases hg : env.genOk = false
        · simp [hacq, hg] at h
        · simp [hacq, hg] at h
          have hb := map_mem_of_nonneg (env.cryptoRand64 : Int) lo hi (Int.ofNat_nonneg _) hr
          omega
  · intro h
    unfold rdrand at h
    by_cases hsup : supports_rdrand env.host = false
    · simp [hsup] at h
    · simp only [hsup, if_false] at h
      rw [hcheck] at h
      by_cases ha : env.allocOk = false
      · simp [ha] at h
      · rcases hl : rdrandLoop env.rdrandResults 0 10 with ⟨ov, k⟩
        cases ov with
        | none => simp [ha, hl] at h
        | some v =>
          simp [ha, hl] at h
          have hb := map_mem_of_nonneg (v : Int) lo hi (Int.ofNat_nonneg _) hr
          omega

/-- Witness for the amended C6: the entropy pool on envLinux with raw 7
and range [1, 100] returns 8, which lies in the range. -/
theorem C6_no_sentinel_witness :
    1 ≤ (8 : Int) ∧ (8 : Int) ≤ 100 :=
  (C6_no_sentinel envLinux 1 100 8 (by decide)).1 rfl
